import Mathlib

/-!
Verification of the mbrs repository (MBR decoding CLI and COMET-QE metric
wrapper) against its natural-language specification.

The development shallowly embeds the two source files:

- `src/mbrs/cli/decode.py` : the command-line front end `main(args)`.
  File reading, the per-sentence slicing of the hypotheses / references /
  sources line lists, the block-size assertion, and the per-sentence decode
  loop are embedded as pure functions over `List String`.  The decoder body
  itself lives in `mbrs.decoders`, which is not part of the repository
  excerpt, so `main` is parameterised over the two decode entry points and
  its result records the exact arguments of every decode invocation (the
  call trace) together with the fault, if any, that terminated the run.

- `src/mbrs/metrics/cometqe.py` : the `MetricCOMETQE` wrapper.  The
  third-party neural scorer (the `comet` package) is external to the
  repository; following the specification it is modelled as an opaque
  per-pair scoring function applied item-wise, order-preservingly, to a
  batch.

Machine-level faults of the Python code (`AssertionError`, `TypeError` on
subscripting `None`, `IndexError`, `ZeroDivisionError`) are embedded as
explicit error values.
-/

set_option autoImplicit false

/-! ### Python string and list primitives -/

/-- Whitespace characters removed by the Python `str.strip()` method. -/
def isPyWhitespace (c : Char) : Bool :=
  c == ' ' || c == '\t' || c == '\n' || c == '\r' || c == '\x0b' || c == '\x0c'

/-- Python `s.strip()` : remove leading and trailing whitespace. -/
def pyStrip (s : String) : String :=
  String.mk (((s.toList.dropWhile isPyWhitespace).reverse.dropWhile
    isPyWhitespace).reverse)

/-- Python list slicing `xs[a:b]` for nonnegative bounds. -/
def pySlice {α : Type} (xs : List α) (a b : Nat) : List α :=
  (xs.drop a).take (b - a)

/-- The per-sentence block of `decode.py` lines 87, 95 and 96:
`[x.strip() for x in xs[i * n : (i + 1) * n]]`. -/
def stripBlock (xs : List String) (i n : Nat) : List String :=
  (pySlice xs (i * n) ((i + 1) * n)).map pyStrip

/-- The file-line indices selected by the slice `xs[i * n : (i + 1) * n]`
of a file of `L` lines: `i * n, ..., min ((i + 1) * n) L - 1` — the block
of size `n` of sentence `i`, clamped to the file length exactly as Python
slicing clamps. -/
def clampedBlockIndices (i n L : Nat) : List Nat :=
  (List.range (min ((i + 1) * n) L - i * n)).map (fun t => i * n + t)

/-! ### CLI model (`src/mbrs/cli/decode.py`) -/

/-- Python runtime faults that can terminate `main` before or during the
decode loop. -/
inductive CliError : Type where
  /-- `ZeroDivisionError` at line 81 when `num_candidates` is zero. -/
  | zeroDivisionError : CliError
  /-- `AssertionError` at line 82: `num_sents * num_cands == len(hypotheses)`
  fails. -/
  | assertionError : CliError
  /-- `TypeError` at line 86: `sources[i]` with `sources` equal to `None`
  (no source file was supplied on a reference-free run). -/
  | typeError : CliError
  /-- `IndexError`: `sources[i]` with too few source lines. -/
  | indexError : CliError
  deriving DecidableEq

/-- One invocation of `decoder.decode` as performed by `main`, recording its
arguments and the returned `output.sentence` list, whose elements are the
lines printed for this sentence (lines 90 and 91, 99 and 100). -/
inductive CallRecord : Type where
  /-- Reference-free call `decoder.decode(hyps, src, args.nbest)`. -/
  | rl (hyps : List String) (src : String) (nbest : Nat)
      (outLines : List String) : CallRecord
  /-- Reference-based call `decoder.decode(hyps, refs, src, args.nbest)`. -/
  | rb (hyps : List String) (refs : List String) (src : Option String)
      (nbest : Nat) (outLines : List String) : CallRecord
  deriving DecidableEq

/-- The hypothesis pool argument of a decode invocation. -/
def CallRecord.hyps : CallRecord → List String
  | CallRecord.rl h _ _ _ => h
  | CallRecord.rb h _ _ _ _ => h

/-- The lines printed for the sentence of a decode invocation. -/
def CallRecord.outLines : CallRecord → List String
  | CallRecord.rl _ _ _ o => o
  | CallRecord.rb _ _ _ _ o => o

/-- Result of a run of `main`: the decode invocations that happened, in
order, and the fault (if any) that terminated the run.  On a faulting run
`calls` holds the invocations completed before the fault. -/
structure RunResult : Type where
  calls : List CallRecord
  error : Option CliError
  deriving DecidableEq

/-- The parsed command-line arguments of `decode.py`, with each file
argument replaced by the list of lines `readlines()` returns for it
(`none` when the argument was not supplied). -/
structure Args : Type where
  sources : Option (List String)
  hypotheses : List String
  references : Option (List String)
  num_candidates : Nat
  num_references : Option Nat
  nbest : Nat
  metric : String
  batch_size : Nat
  fp16 : Bool
  /-- Whether the decoder selected by `args.decoder` is an instance of
  `DecoderReferenceless` (line 84); the decoder classes are outside the
  repository excerpt, so the mode test is abstracted as a flag. -/
  refless : Bool
  deriving DecidableEq

/-- Line 80: `num_refs = args.num_references or num_cands`.  The Python
`or` falls through both on `None` and on the falsy value `0`. -/
def numRefs (args : Args) : Nat :=
  match args.num_references with
  | none => args.num_candidates
  | some k => if k = 0 then args.num_candidates else k

/-- Line 94: `src = sources[i].strip() if sources is not None else None`.
Subscripting a too-short list raises `IndexError`. -/
def getSrcRB (osrcs : Option (List String)) (i : Nat) :
    Except CliError (Option String) :=
  match osrcs with
  | none => Except.ok none
  | some ss =>
    match ss.get? i with
    | none => Except.error CliError.indexError
    | some s => Except.ok (some (pyStrip s))

/-- Line 86: `src = sources[i].strip()`.  Raises `TypeError` when
`sources` is `None` and `IndexError` when it is too short. -/
def getSrcRL (osrcs : Option (List String)) (i : Nat) :
    Except CliError String :=
  match osrcs with
  | none => Except.error CliError.typeError
  | some ss =>
    match ss.get? i with
    | none => Except.error CliError.indexError
    | some s => Except.ok (pyStrip s)

/-- The reference-free decode loop (lines 85-91), iterating sentence
indices `i, i + 1, ..., i + count - 1`.  `dRL` is the decode entry point of
the (external) `DecoderReferenceless`. -/
def reflessLoop (dRL : List String → String → Nat → List String)
    (osrcs : Option (List String)) (hypotheses : List String)
    (nc nbest : Nat) : Nat → Nat → RunResult
  | _, 0 => ⟨[], none⟩
  | i, count + 1 =>
    match getSrcRL osrcs i with
    | Except.error e => ⟨[], some e⟩
    | Except.ok src =>
      let hyps := stripBlock hypotheses i nc
      let rest := reflessLoop dRL osrcs hypotheses nc nbest (i + 1) count
      ⟨CallRecord.rl hyps src nbest (dRL hyps src nbest) :: rest.calls,
        rest.error⟩

/-- The reference-based decode loop (lines 93-100).  `dRB` is the decode
entry point of the (external) `DecoderReferenceBased`. -/
def refBasedLoop (dRB : List String → List String → Option String → Nat →
      List String)
    (osrcs : Option (List String)) (references hypotheses : List String)
    (nc nr nbest : Nat) : Nat → Nat → RunResult
  | _, 0 => ⟨[], none⟩
  | i, count + 1 =>
    match getSrcRB osrcs i with
    | Except.error e => ⟨[], some e⟩
    | Except.ok src =>
      let hyps := stripBlock hypotheses i nc
      let refs := stripBlock references i nr
      let rest := refBasedLoop dRB osrcs references hypotheses nc nr nbest
        (i + 1) count
      ⟨CallRecord.rb hyps refs src nbest (dRB hyps refs src nbest) ::
        rest.calls, rest.error⟩

/-- The body of `main(args)` (lines 50-100), parameterised over the two
decode entry points.  It mirrors, in order: the fallback of `references` to
`hypotheses` (lines 60-65), `num_refs` (line 80), `num_sents` (line 81,
with `ZeroDivisionError` on a zero divisor), the block-size assertion
(line 82), and the mode dispatch into the two loops (lines 84-100). -/
def mainRun (dRL : List String → String → Nat → List String)
    (dRB : List String → List String → Option String → Nat → List String)
    (args : Args) : RunResult :=
  if args.num_candidates = 0 then ⟨[], some CliError.zeroDivisionError⟩
  else
    let references := args.references.getD args.hypotheses
    let nc := args.num_candidates
    let nr := numRefs args
    let num_sents := args.hypotheses.length / nc
    if num_sents * nc = args.hypotheses.length then
      if args.refless then
        reflessLoop dRL args.sources args.hypotheses nc args.nbest 0 num_sents
      else
        refBasedLoop dRB args.sources references args.hypotheses nc nr
          args.nbest 0 num_sents
    else ⟨[], some CliError.assertionError⟩

/-! ### Metric configuration selection (`decode.py` lines 67-72 and
`cometqe.py` lines 13-30) -/

/-- The `MetricCOMETQE.Config` dataclass of `cometqe.py` (lines 17-30),
with its declared default values. -/
structure COMETQEConfig : Type where
  model : String := "Unbabel/wmt22-cometkiwi-da"
  batch_size : Nat := 64
  float16 : Bool := false
  cpu : Bool := false
  deriving DecidableEq

/-- Name under which the COMET-QE metric is registered
(`@register("comet_qe")`, `cometqe.py` line 13). -/
def MetricCOMETQE.registryName : String := "comet_qe"

/-- The test of `decode.py` line 68:
`args.metric == "comet" or args.metric == "cometqe"`. -/
def cliMetricIsCometBranch (metricName : String) : Bool :=
  metricName == "comet" || metricName == "cometqe"

/-- Lines 67-72 of `decode.py`, specialised to the COMET-QE metric type:
the configuration object the CLI constructs for the selected metric name.
Only on the `comet` or `cometqe` branch are `--batch-size` and `--fp16`
forwarded; otherwise the default `Config()` is built. -/
def cliCOMETQEConfig (metricName : String) (batchSize : Nat) (fp16 : Bool) :
    COMETQEConfig :=
  if cliMetricIsCometBranch metricName then
    { batch_size := batchSize, float16 := fp16 }
  else
    {}

/-! ### The COMET-QE metric wrapper (`src/mbrs/metrics/cometqe.py`) -/

/-- One entry of the `data` list built at `cometqe.py` line 71:
`{"src": source, "mt": hyp}`. -/
structure DataItem : Type where
  src : String
  mt : String
  deriving DecidableEq

/-- Modelled from the spec: `self.scorer.predict(data, ...)` at line 72 is
a call into the third-party `comet` package, which is not part of the
repository.  Per the specification the metric backend is an opaque
synchronous scoring capability whose batched form is order-preserving and
of equal length (result `i` corresponds to input `i`), so it is embedded
as an opaque per-pair scoring function `model` applied item-wise. -/
def predictScores (model : String → String → Float) (data : List DataItem) :
    List Float :=
  data.map (fun d => model d.src d.mt)

/-- Numpy `np.array(xs).reshape(n)` on a flat list: succeeds exactly when
the list already has `n` elements, otherwise raises. -/
def npReshape (xs : List Float) (n : Nat) : Option (List Float) :=
  if xs.length = n then some xs else none

/-- Numpy `.item()` on a one-dimensional array: the unique element of a
size-one array, a fault otherwise. -/
def npItem (xs : List Float) : Option Float :=
  match xs with
  | [x] => some x
  | _ => none

/-- `MetricCOMETQE.scores` (`cometqe.py` lines 61-73): build one data item
per hypothesis against the single source, run the scorer on the batch, and
reshape the score list to the number of hypotheses. -/
def MetricCOMETQE.scores (model : String → String → Float)
    (hypotheses : List String) (source : String) : Option (List Float) :=
  npReshape
    (predictScores model (hypotheses.map (fun hyp => ⟨source, hyp⟩)))
    hypotheses.length

/-- `MetricCOMETQE.score` (`cometqe.py` lines 49-59):
`self.scores([hypothesis], source).item()`. -/
def MetricCOMETQE.score (model : String → String → Float)
    (hypothesis source : String) : Option Float :=
  (MetricCOMETQE.scores model [hypothesis] source).bind npItem

/-! ### Spec-modelled decoder

The decoder classes (`mbrs.decoders`) are repository code that is not part
of the excerpt; only the CLI caller is visible.  Following the
specification they are modelled here: utility matrix by batched metric
calls, arithmetic-mean aggregation over the references, ranking descending
by aggregated score with ties broken by ascending original index, and
truncation of the ranking to the requested n-best size. -/

/-- Arithmetic mean of a list of floating-point scores. -/
def meanFloat (xs : List Float) : Float :=
  xs.foldl (fun a b => a + b) 0 / Float.ofNat xs.length

/-- Ranking order on hypothesis indices: index `i` precedes index `j` when
its aggregated score is strictly higher, or on bit-identical scores when
`i` is the smaller original index. -/
def ranksBefore (scores : List Float) (i j : Nat) : Bool :=
  let si := scores.getD i 0
  let sj := scores.getD j 0
  decide (sj < si) || (si == sj && decide (i < j))

/-- Insert an index into an already ranked index list. -/
def insertRank (scores : List Float) (i : Nat) : List Nat → List Nat
  | [] => [i]
  | j :: rest =>
    if ranksBefore scores i j then i :: j :: rest
    else j :: insertRank scores i rest

/-- Modelled from the spec: all hypothesis indices ordered by descending
aggregated score, ties broken by ascending original index. -/
def rankIndices (scores : List Float) : List Nat :=
  (List.range scores.length).foldr (insertRank scores) []

/-- Modelled from the spec: the selector returns the texts of the
`min n H` best-ranked hypotheses, in ranked order. -/
def specSelect (scores : List Float) (hyps : List String) (n : Nat) :
    List String :=
  ((rankIndices scores).take n).map (fun i => hyps.getD i "")

/-- Modelled from the spec: `DecoderReferenceBased.decode(hyps, refs, src,
nbest).sentence` (the decoder body lives in `mbrs.decoders`, outside the
excerpt).  Each hypothesis row of the utility matrix is aggregated by
arithmetic mean over the references, and the ranked top `min nbest H`
hypothesis texts are returned. -/
def specDecodeRB (metricScore : String → String → Float)
    (hyps refs : List String) (_src : Option String) (n : Nat) :
    List String :=
  specSelect (hyps.map (fun h => meanFloat (refs.map (fun r =>
    metricScore h r)))) hyps n

/-- Modelled from the spec: `DecoderReferenceless.decode(hyps, src,
nbest).sentence` (the decoder body lives in `mbrs.decoders`, outside the
excerpt).  In reference-free mode each hypothesis is scored once against
the single source (a length-H vector, aggregation is the identity since
R = 1), and the ranked top `min nbest H` hypothesis texts are
returned. -/
def specDecodeRL (metricScore : String → String → Float)
    (hyps : List String) (src : String) (n : Nat) : List String :=
  specSelect (hyps.map (fun h => metricScore h src)) hyps n

/-! ### Helper lemmas -/

lemma pySlice_block {α : Type} (xs : List α) (i n : Nat) :
    pySlice xs (i * n) ((i + 1) * n) = (xs.drop (i * n)).take n := by
  have h : (i + 1) * n - i * n = n := by
    rw [Nat.succ_mul]
    omega
  rw [pySlice, h]

lemma stripBlock_length (xs : List String) (i n : Nat)
    (h : (i + 1) * n ≤ xs.length) : (stripBlock xs i n).length = n := by
  have hn : i * n + n ≤ xs.length := by
    rw [Nat.succ_mul] at h
    omega
  simp only [stripBlock, pySlice_block, List.length_map, List.length_take,
    List.length_drop]
  omega

lemma mainRun_eq_refBased
    (dRL : List String → String → Nat → List String)
    (dRB : List String → List String → Option String → Nat → List String)
    (args : Args) (hnc : args.num_candidates ≠ 0)
    (hdvd : args.num_candidates ∣ args.hypotheses.length)
    (hmode : args.refless = false) :
    mainRun dRL dRB args =
      refBasedLoop dRB args.sources (args.references.getD args.hypotheses)
        args.hypotheses args.num_candidates (numRefs args) args.nbest 0
        (args.hypotheses.length / args.num_candidates) := by
  have h1 : args.hypotheses.length / args.num_candidates *
      args.num_candidates = args.hypotheses.length :=
    Nat.div_mul_cancel hdvd
  simp [mainRun, hnc, h1, hmode]

lemma mainRun_eq_refless
    (dRL : List String → String → Nat → List String)
    (dRB : List String → List String → Option String → Nat → List String)
    (args : Args) (hnc : args.num_candidates ≠ 0)
    (hdvd : args.num_candidates ∣ args.hypotheses.length)
    (hmode : args.refless = true) :
    mainRun dRL dRB args =
      reflessLoop dRL args.sources args.hypotheses args.num_candidates
        args.nbest 0 (args.hypotheses.length / args.num_candidates) := by
  have h1 : args.hypotheses.length / args.num_candidates *
      args.num_candidates = args.hypotheses.length :=
    Nat.div_mul_cancel hdvd
  simp [mainRun, hnc, h1, hmode]

lemma refBasedLoop_calls_get
    (dRB : List String → List String → Option String → Nat → List String)
    (osrcs : Option (List String)) (references hypotheses : List String)
    (nc nr nbest : Nat) :
    ∀ (count start j : Nat), j < count →
      (osrcs = none ∨ ∃ ss, osrcs = some ss ∧ start + count ≤ ss.length) →
      ∃ src,
        (refBasedLoop dRB osrcs references hypotheses nc nr nbest start
            count).calls[j]? =
          some (CallRecord.rb (stripBlock hypotheses (start + j) nc)
            (stripBlock references (start + j) nr) src nbest
            (dRB (stripBlock hypotheses (start + j) nc)
              (stripBlock references (start + j) nr) src nbest)) := by
  intro count
  induction count with
  | zero => intro start j hj _; exact absurd hj (Nat.not_lt_zero j)
  | succ n ih =>
    intro start j hj hok
    have hsrc : ∃ src, getSrcRB osrcs start = Except.ok src := by
      rcases hok with h | ⟨ss, hss, hlen⟩
      · exact ⟨none, by simp [getSrcRB, h]⟩
      · have hlt : start < ss.length := by omega
        have hget : ss[start]? = some ss[start] :=
          List.getElem?_eq_getElem hlt
        exact ⟨some (pyStrip ss[start]),
          by simp [getSrcRB, hss, hget]⟩
    obtain ⟨src, hsrc⟩ := hsrc
    have hok2 : osrcs = none ∨
        ∃ ss, osrcs = some ss ∧ start + 1 + n ≤ ss.length := by
      rcases hok with h | ⟨ss, hss, hlen⟩
      · exact Or.inl h
      · exact Or.inr ⟨ss, hss, by omega⟩
    cases j with
    | zero =>
      refine ⟨src, ?_⟩
      simp [refBasedLoop, hsrc]
    | succ j' =>
      obtain ⟨src2, hsrc2⟩ := ih (start + 1) j' (by omega) hok2
      refine ⟨src2, ?_⟩
      have harr : start + 1 + j' = start + (j' + 1) := by omega
      rw [harr] at hsrc2
      simp [refBasedLoop, hsrc, hsrc2]

lemma reflessLoop_calls_get
    (dRL : List String → String → Nat → List String)
    (ss : List String) (hypotheses : List String) (nc nbest : Nat) :
    ∀ (count start j : Nat), j < count → start + count ≤ ss.length →
      ∃ src,
        (reflessLoop dRL (some ss) hypotheses nc nbest start
            count).calls[j]? =
          some (CallRecord.rl (stripBlock hypotheses (start + j) nc) src
            nbest (dRL (stripBlock hypotheses (start + j) nc) src nbest)) := by
  intro count
  induction count with
  | zero => intro start j hj _; exact absurd hj (Nat.not_lt_zero j)
  | succ n ih =>
    intro start j hj hlen
    have hlt : start < ss.length := by omega
    have hget : ss[start]? = some ss[start] := List.getElem?_eq_getElem hlt
    cases j with
    | zero =>
      refine ⟨pyStrip ss[start], ?_⟩
      simp [reflessLoop, getSrcRL, hget]
    | succ j' =>
      obtain ⟨src2, hsrc2⟩ := ih (start + 1) j' (by omega) (by omega)
      refine ⟨src2, ?_⟩
      have harr : start + 1 + j' = start + (j' + 1) := by omega
      rw [harr] at hsrc2
      simp [reflessLoop, getSrcRL, hget, hsrc2]

lemma blocks_flatMap_take {α : Type} (nc : Nat) :
    ∀ (m : Nat) (xs : List α),
      (List.range m).flatMap
        (fun j => pySlice xs (j * nc) ((j + 1) * nc)) = xs.take (m * nc) := by
  intro m
  induction m with
  | zero => intro xs; simp
  | succ n ih =>
    intro xs
    rw [List.range_succ, List.flatMap_append]
    simp only [List.flatMap_cons, List.flatMap_nil, List.append_nil]
    rw [ih, pySlice_block, Nat.succ_mul, List.take_add]

lemma insertRank_length (scores : List Float) (i : Nat) :
    ∀ l : List Nat, (insertRank scores i l).length = l.length + 1 := by
  intro l
  induction l with
  | nil => rfl
  | cons x xs ih =>
    by_cases h : ranksBefore scores i x
    · simp [insertRank, h]
    · simp [insertRank, h, ih]

lemma foldr_insertRank_length (scores : List Float) :
    ∀ (l acc : List Nat),
      (l.foldr (insertRank scores) acc).length = l.length + acc.length := by
  intro l
  induction l with
  | nil => intro acc; simp
  | cons x xs ih =>
    intro acc
    simp only [List.foldr_cons, insertRank_length, ih, List.length_cons]
    omega

lemma rankIndices_length (scores : List Float) :
    (rankIndices scores).length = scores.length := by
  simp [rankIndices, foldr_insertRank_length]

lemma mem_insertRank (scores : List Float) (i : Nat) :
    ∀ (l : List Nat) (j : Nat), j ∈ insertRank scores i l →
      j = i ∨ j ∈ l := by
  intro l
  induction l with
  | nil =>
    intro j hj
    simp [insertRank] at hj
    exact Or.inl hj
  | cons x xs ih =>
    intro j hj
    by_cases h : ranksBefore scores i x
    · simp only [insertRank, h, if_pos] at hj
      rcases List.mem_cons.mp hj with h1 | h1
      · exact Or.inl h1
      · exact Or.inr h1
    · simp only [insertRank, h] at hj
      rcases List.mem_cons.mp hj with h1 | h1
      · exact Or.inr (h1 ▸ List.mem_cons_self x xs)
      · rcases ih j h1 with h2 | h2
        · exact Or.inl h2
        · exact Or.inr (List.mem_cons_of_mem x h2)

lemma mem_foldr_insertRank (scores : List Float) :
    ∀ (l acc : List Nat) (j : Nat),
      j ∈ l.foldr (insertRank scores) acc → j ∈ l ∨ j ∈ acc := by
  intro l
  induction l with
  | nil => intro acc j h; exact Or.inr h
  | cons x xs ih =>
    intro acc j h
    rcases mem_insertRank scores x (xs.foldr (insertRank scores) acc) j h
      with h1 | h1
    · exact Or.inl (h1 ▸ List.mem_cons_self x xs)
    · rcases ih acc j h1 with h2 | h2
      · exact Or.inl (List.mem_cons_of_mem x h2)
      · exact Or.inr h2

lemma mem_rankIndices (scores : List Float) (j : Nat)
    (h : j ∈ rankIndices scores) : j < scores.length := by
  rcases mem_foldr_insertRank scores (List.range scores.length) [] j h
    with h1 | h1
  · exact List.mem_range.mp h1
  · simp at h1

lemma specSelect_length (scores : List Float) (hyps : List String)
    (n : Nat) : (specSelect scores hyps n).length = min n scores.length := by
  simp [specSelect, rankIndices_length]

lemma specSelect_mem (scores : List Float) (hyps : List String) (n : Nat)
    (hlen : scores.length = hyps.length) :
    ∀ line ∈ specSelect scores hyps n, line ∈ hyps := by
  intro line hline
  simp only [specSelect, List.mem_map] at hline
  obtain ⟨j, hj, rfl⟩ := hline
  have hjm : j ∈ rankIndices scores := List.mem_of_mem_take hj
  have hjl : j < hyps.length := hlen ▸ mem_rankIndices scores j hjm
  rw [List.getD_eq_getElem hyps "" hjl]
  exact List.getElem_mem hjl

lemma mem_clampedBlockIndices (i n L idx : Nat) :
    idx ∈ clampedBlockIndices i n L ↔
      i * n ≤ idx ∧ idx < min ((i + 1) * n) L := by
  simp only [clampedBlockIndices, List.mem_map, List.mem_range]
  constructor
  · rintro ⟨t, ht, rfl⟩
    omega
  · rintro ⟨h1, h2⟩
    exact ⟨idx - i * n, by omega, by omega⟩

lemma pySlice_eq_map_getD (xs : List String) (a b : Nat) :
    pySlice xs a b =
      (List.range (min b xs.length - a)).map
        (fun t => xs.getD (a + t) "") := by
  apply List.ext_getElem
  · simp only [pySlice, List.length_take, List.length_drop,
      List.length_map, List.length_range]
    omega
  · intro j h1 h2
    have hj : a + j < xs.length := by
      simp only [pySlice, List.length_take, List.length_drop] at h1
      omega
    simp only [pySlice, List.getElem_take, List.getElem_drop,
      List.getElem_map, List.getElem_range]
    rw [List.getD_eq_getElem xs "" hj]

lemma stripBlock_eq_map_indices (xs : List String) (i n : Nat) :
    stripBlock xs i n =
      (clampedBlockIndices i n xs.length).map
        (fun idx => pyStrip (xs.getD idx "")) := by
  rw [stripBlock, pySlice_eq_map_getD, clampedBlockIndices, List.map_map,
    List.map_map]
  rfl

lemma specDecodeRB_length (m : String → String → Float)
    (hyps refs : List String) (src : Option String) (n : Nat) :
    (specDecodeRB m hyps refs src n).length = min n hyps.length := by
  simp [specDecodeRB, specSelect_length]

lemma specDecodeRB_mem (m : String → String → Float)
    (hyps refs : List String) (src : Option String) (n : Nat) :
    ∀ line ∈ specDecodeRB m hyps refs src n, line ∈ hyps := by
  intro line hline
  exact specSelect_mem _ hyps n (by simp) line hline

lemma specDecodeRL_length (m : String → String → Float)
    (hyps : List String) (src : String) (n : Nat) :
    (specDecodeRL m hyps src n).length = min n hyps.length := by
  simp [specDecodeRL, specSelect_length]

lemma specDecodeRL_mem (m : String → String → Float)
    (hyps : List String) (src : String) (n : Nat) :
    ∀ line ∈ specDecodeRL m hyps src n, line ∈ hyps := by
  intro line hline
  exact specSelect_mem _ hyps n (by simp) line hline

/-! ### The claims -/

/-- C1: If the total number of lines in the hypotheses file is not evenly
divisible by `num_candidates`, the CLI run fails — the block-size
assertion of `decode.py` line 82 raises, giving a non-zero exit status —
and the decode-call trace is empty, so no decode call is ever invoked. -/
theorem C1_indivisible_fails_before_decode
    (dRL : List String → String → Nat → List String)
    (dRB : List String → List String → Option String → Nat → List String)
    (args : Args) (hnc : args.num_candidates ≠ 0)
    (hndvd : ¬ args.num_candidates ∣ args.hypotheses.length) :
    mainRun dRL dRB args = ⟨[], some CliError.assertionError⟩ := by
  have h2 : ¬ args.hypotheses.length / args.num_candidates *
      args.num_candidates = args.hypotheses.length := by
    intro h
    refine hndvd ⟨args.hypotheses.length / args.num_candidates, ?_⟩
    rw [Nat.mul_comm] at h
    exact h.symm
  simp [mainRun, hnc, h2]

/-- C1 witness: a hypotheses file of 7 lines with `num_candidates` 3 —
the validation fault fires and decode is never invoked. -/
theorem C1_indivisible_fails_before_decode_witness :
    ((3 : Nat) ≠ 0 ∧ ¬ (3 : Nat) ∣ 7) ∧
    mainRun (fun _ _ _ => []) (fun _ _ _ _ => [])
      { sources := none,
        hypotheses := ["a", "b", "c", "d", "e", "f", "g"],
        references := none, num_candidates := 3, num_references := none,
        nbest := 1, metric := "bleu", batch_size := 64, fp16 := false,
        refless := false } = ⟨[], some CliError.assertionError⟩ :=
  ⟨⟨by decide, by decide⟩,
    C1_indivisible_fails_before_decode (fun _ _ _ => []) (fun _ _ _ _ => [])
      { sources := none,
        hypotheses := ["a", "b", "c", "d", "e", "f", "g"],
        references := none, num_candidates := 3, num_references := none,
        nbest := 1, metric := "bleu", batch_size := 64, fp16 := false,
        refless := false } (by decide) (by decide)⟩

/-- C3: `MetricCOMETQE.scores(hypotheses, source)` returns a sequence of
floats of length equal to the number of hypotheses whose element `i` is
the score of `hypotheses[i]` against the source (the batched backend call
is order-preserving). -/
theorem C3_scores_batched_aligned (model : String → String → Float)
    (hypotheses : List String) (source : String) :
    MetricCOMETQE.scores model hypotheses source =
      some (hypotheses.map (fun h => model source h)) ∧
    (hypotheses.map (fun h => model source h)).length =
      hypotheses.length := by
  constructor
  · simp [MetricCOMETQE.scores, predictScores, npReshape, List.map_map,
      Function.comp]
  · simp

/-- C4: `MetricCOMETQE.score(h, s)` returns exactly the single element of
the batched call `MetricCOMETQE.scores([h], s)` — the scalar interface is
a refinement of the batched one on singleton input. -/
theorem C4_score_refines_scores (model : String → String → Float)
    (h s : String) :
    MetricCOMETQE.scores model [h] s = some [model s h] ∧
    MetricCOMETQE.score model h s = some (model s h) := by
  exact ⟨rfl, rfl⟩

/-- C5: On a reference-free run with no source file supplied, the run
faults (at `decode.py` line 86, subscripting `None`) at the head of the
very first iteration, so the fault surfaces with an empty decode-call
trace: no decode call and hence no metric invocation ever happens. -/
theorem C5_missing_source_fails_before_decode
    (dRL : List String → String → Nat → List String)
    (dRB : List String → List String → Option String → Nat → List String)
    (args : Args) (hnc : args.num_candidates ≠ 0)
    (hdvd : args.num_candidates ∣ args.hypotheses.length)
    (hmode : args.refless = true) (hsrc : args.sources = none)
    (hne : args.num_candidates ≤ args.hypotheses.length) :
    mainRun dRL dRB args = ⟨[], some CliError.typeError⟩ := by
  rw [mainRun_eq_refless dRL dRB args hnc hdvd hmode]
  have h1 : 1 ≤ args.hypotheses.length / args.num_candidates :=
    (Nat.one_le_div_iff (Nat.pos_of_ne_zero hnc)).mpr hne
  obtain ⟨n, hn⟩ :
      ∃ n, args.hypotheses.length / args.num_candidates = n + 1 :=
    ⟨args.hypotheses.length / args.num_candidates - 1, by omega⟩
  rw [hn, hsrc]
  simp [reflessLoop, getSrcRL]

/-- C5 witness: a reference-free run over one sentence of three
candidates with no source file faults with an empty decode trace. -/
theorem C5_missing_source_fails_before_decode_witness :
    ((3 : Nat) ≠ 0 ∧ (3 : Nat) ∣ 3) ∧
    mainRun (fun _ _ _ => []) (fun _ _ _ _ => [])
      { sources := none, hypotheses := ["a", "b", "c"],
        references := none, num_candidates := 3, num_references := none,
        nbest := 1, metric := "comet_qe", batch_size := 64, fp16 := false,
        refless := true } = ⟨[], some CliError.typeError⟩ :=
  ⟨⟨by decide, by decide⟩,
    C5_missing_source_fails_before_decode (fun _ _ _ => [])
      (fun _ _ _ _ => [])
      { sources := none, hypotheses := ["a", "b", "c"],
        references := none, num_candidates := 3, num_references := none,
        nbest := 1, metric := "comet_qe", batch_size := 64, fp16 := false,
        refless := true } (by decide) (by decide) (by decide) (by decide)
      (by decide)⟩

/-- C9: The COMET-QE metric is registered as `"comet_qe"`, which matches
neither `"comet"` nor `"cometqe"` in the test at `decode.py` line 68, so
the CLI constructs the default `Config()` for it and the `--batch-size`
and `--fp16` arguments are silently ignored (the config keeps
`batch_size = 64`, `float16 = False` whatever was passed). -/
theorem C9_cometqe_flags_ignored (b : Nat) (f : Bool) :
    cliMetricIsCometBranch MetricCOMETQE.registryName = false ∧
    cliCOMETQEConfig MetricCOMETQE.registryName b f = {} ∧
    (cliCOMETQEConfig MetricCOMETQE.registryName b f).batch_size = 64 ∧
    (cliCOMETQEConfig MetricCOMETQE.registryName b f).float16 = false := by
  refine ⟨by decide, ?_, ?_, ?_⟩ <;>
    simp [cliCOMETQEConfig, cliMetricIsCometBranch,
      MetricCOMETQE.registryName]

/-- C2: When no references file is supplied and `--num-references` is
unset, every sentence's decode call receives, as its reference list, the
sentence's own candidate pool: the same `num_candidates` hypotheses-file
lines, stripped (`references = hypotheses` at `decode.py` line 65 and
`num_refs = num_cands` at line 80). -/
theorem C2_hypotheses_reused_as_references
    (dRL : List String → String → Nat → List String)
    (dRB : List String → List String → Option String → Nat → List String)
    (args : Args)
    (href : args.references = none) (hnr : args.num_references = none)
    (hmode : args.refless = false) (hnc : args.num_candidates ≠ 0)
    (hdvd : args.num_candidates ∣ args.hypotheses.length)
    (hok : args.sources = none ∨ ∃ ss, args.sources = some ss ∧
      args.hypotheses.length / args.num_candidates ≤ ss.length)
    (i : Nat) (hi : i < args.hypotheses.length / args.num_candidates) :
    ∃ src,
      (mainRun dRL dRB args).calls[i]? =
        some (CallRecord.rb
          (stripBlock args.hypotheses i args.num_candidates)
          (stripBlock args.hypotheses i args.num_candidates) src args.nbest
          (dRB (stripBlock args.hypotheses i args.num_candidates)
            (stripBlock args.hypotheses i args.num_candidates) src
            args.nbest)) := by
  rw [mainRun_eq_refBased dRL dRB args hnc hdvd hmode]
  have hrefs : args.references.getD args.hypotheses = args.hypotheses := by
    rw [href]; rfl
  have hnr2 : numRefs args = args.num_candidates := by simp [numRefs, hnr]
  rw [hrefs, hnr2]
  have hok2 : args.sources = none ∨ ∃ ss, args.sources = some ss ∧
      0 + args.hypotheses.length / args.num_candidates ≤ ss.length := by
    simpa using hok
  have h := refBasedLoop_calls_get dRB args.sources args.hypotheses
    args.hypotheses args.num_candidates args.num_candidates args.nbest
    (args.hypotheses.length / args.num_candidates) 0 i hi hok2
  simpa using h

/-- C2 witness: two sentences of two candidates each, no references file,
`--num-references` unset; the decode call of sentence 1 receives its own
candidate pool as references. -/
theorem C2_hypotheses_reused_as_references_witness :
    ∃ src,
      (mainRun (fun _ _ _ => []) (fun _ _ _ _ => [])
        { sources := none, hypotheses := ["a", "b", "c", "d"],
          references := none, num_candidates := 2, num_references := none,
          nbest := 1, metric := "bleu", batch_size := 64, fp16 := false,
          refless := false }).calls[1]? =
        some (CallRecord.rb
          (stripBlock ["a", "b", "c", "d"] 1 2)
          (stripBlock ["a", "b", "c", "d"] 1 2) src 1
          ((fun _ _ _ _ => ([] : List String))
            (stripBlock ["a", "b", "c", "d"] 1 2)
            (stripBlock ["a", "b", "c", "d"] 1 2) src 1)) :=
  C2_hypotheses_reused_as_references (fun _ _ _ => []) (fun _ _ _ _ => [])
    { sources := none, hypotheses := ["a", "b", "c", "d"],
      references := none, num_candidates := 2, num_references := none,
      nbest := 1, metric := "bleu", batch_size := 64, fp16 := false,
      refless := false } (by decide) (by decide) (by decide) (by decide)
    (by decide) (Or.inl (by decide)) 1 (by decide)

/-- C7: On a well-formed run, the hypothesis pool of the decode call of
sentence `i` is exactly hypotheses-file lines `i * num_candidates` up to
`(i + 1) * num_candidates - 1`, each stripped; and the consecutive blocks,
concatenated in order, give back the whole hypotheses file — no line is
shared between sentences and none is skipped. -/
theorem C7_fixed_size_blocks
    (dRL : List String → String → Nat → List String)
    (dRB : List String → List String → Option String → Nat → List String)
    (args : Args) (hnc : args.num_candidates ≠ 0)
    (hdvd : args.num_candidates ∣ args.hypotheses.length)
    (hok : args.sources = none ∧ args.refless = false ∨
      ∃ ss, args.sources = some ss ∧
        args.hypotheses.length / args.num_candidates ≤ ss.length)
    (i : Nat) (hi : i < args.hypotheses.length / args.num_candidates) :
    (∃ rec, (mainRun dRL dRB args).calls[i]? = some rec ∧
      rec.hyps = stripBlock args.hypotheses i args.num_candidates) ∧
    (List.range (args.hypotheses.length / args.num_candidates)).flatMap
      (fun j => pySlice args.hypotheses (j * args.num_candidates)
        ((j + 1) * args.num_candidates)) = args.hypotheses := by
  constructor
  · cases hm : args.refless with
    | false =>
      rw [mainRun_eq_refBased dRL dRB args hnc hdvd hm]
      have hok2 : args.sources = none ∨ ∃ ss, args.sources = some ss ∧
          0 + args.hypotheses.length / args.num_candidates ≤ ss.length := by
        rcases hok with ⟨h1, _⟩ | ⟨ss, hss, hlen⟩
        · exact Or.inl h1
        · exact Or.inr ⟨ss, hss, by omega⟩
      obtain ⟨src, hsrc⟩ := refBasedLoop_calls_get dRB args.sources
        (args.references.getD args.hypotheses) args.hypotheses
        args.num_candidates (numRefs args) args.nbest
        (args.hypotheses.length / args.num_candidates) 0 i hi hok2
      rw [Nat.zero_add] at hsrc
      exact ⟨_, hsrc, rfl⟩
    | true =>
      rcases hok with ⟨_, habs⟩ | ⟨ss, hss, hlen⟩
      · rw [hm] at habs; cases habs
      · rw [mainRun_eq_refless dRL dRB args hnc hdvd hm, hss]
        obtain ⟨src, hsrc⟩ := reflessLoop_calls_get dRL ss args.hypotheses
          args.num_candidates args.nbest
          (args.hypotheses.length / args.num_candidates) 0 i hi
          (by omega)
        rw [Nat.zero_add] at hsrc
        exact ⟨_, hsrc, rfl⟩
  · rw [blocks_flatMap_take args.num_candidates
      (args.hypotheses.length / args.num_candidates) args.hypotheses,
      Nat.div_mul_cancel hdvd, List.take_length]

/-- C7 witness: three sentences of two candidates each (with surrounding
whitespace on the lines), checked at sentence index 1. -/
theorem C7_fixed_size_blocks_witness :
    (∃ rec,
      (mainRun (fun _ _ _ => []) (fun _ _ _ _ => [])
        { sources := none,
          hypotheses := ["a \n", "b\n", " c\n", "d\n", "e\n", "f\n"],
          references := none, num_candidates := 2, num_references := none,
          nbest := 1, metric := "bleu", batch_size := 64, fp16 := false,
          refless := false }).calls[1]? = some rec ∧
      rec.hyps = stripBlock ["a \n", "b\n", " c\n", "d\n", "e\n", "f\n"]
        1 2) ∧
    (List.range ((["a \n", "b\n", " c\n", "d\n", "e\n", "f\n"] :
        List String).length / 2)).flatMap
      (fun j => pySlice ["a \n", "b\n", " c\n", "d\n", "e\n", "f\n"]
        (j * 2) ((j + 1) * 2)) =
      ["a \n", "b\n", " c\n", "d\n", "e\n", "f\n"] :=
  C7_fixed_size_blocks (fun _ _ _ => []) (fun _ _ _ _ => [])
    { sources := none,
      hypotheses := ["a \n", "b\n", " c\n", "d\n", "e\n", "f\n"],
      references := none, num_candidates := 2, num_references := none,
      nbest := 1, metric := "bleu", batch_size := 64, fp16 := false,
      refless := false } (by decide) (by decide)
    (Or.inl ⟨by decide, by decide⟩) 1 (by decide)

/-- C8: When a references file is given but `--num-references` is not,
the reference block size used for slicing the references file is
`num_candidates`: `numRefs` falls back to `num_candidates` and sentence
`i` gets references-file lines `i * num_candidates` up to
`(i + 1) * num_candidates - 1`, stripped. -/
theorem C8_default_reference_block_size
    (dRL : List String → String → Nat → List String)
    (dRB : List String → List String → Option String → Nat → List String)
    (args : Args) (rs : List String)
    (href : args.references = some rs) (hnr : args.num_references = none)
    (hmode : args.refless = false) (hnc : args.num_candidates ≠ 0)
    (hdvd : args.num_candidates ∣ args.hypotheses.length)
    (hok : args.sources = none ∨ ∃ ss, args.sources = some ss ∧
      args.hypotheses.length / args.num_candidates ≤ ss.length)
    (i : Nat) (hi : i < args.hypotheses.length / args.num_candidates) :
    numRefs args = args.num_candidates ∧
    ∃ src,
      (mainRun dRL dRB args).calls[i]? =
        some (CallRecord.rb
          (stripBlock args.hypotheses i args.num_candidates)
          (stripBlock rs i args.num_candidates) src args.nbest
          (dRB (stripBlock args.hypotheses i args.num_candidates)
            (stripBlock rs i args.num_candidates) src args.nbest)) := by
  have hnr2 : numRefs args = args.num_candidates := by simp [numRefs, hnr]
  refine ⟨hnr2, ?_⟩
  rw [mainRun_eq_refBased dRL dRB args hnc hdvd hmode]
  have hrefs : args.references.getD args.hypotheses = rs := by
    rw [href]; rfl
  rw [hrefs, hnr2]
  have hok2 : args.sources = none ∨ ∃ ss, args.sources = some ss ∧
      0 + args.hypotheses.length / args.num_candidates ≤ ss.length := by
    simpa using hok
  have h := refBasedLoop_calls_get dRB args.sources rs args.hypotheses
    args.num_candidates args.num_candidates args.nbest
    (args.hypotheses.length / args.num_candidates) 0 i hi hok2
  simpa using h

/-- C8 witness: two sentences of two candidates, a references file of
four lines, `--num-references` unset; sentence 1 gets references-file
lines 2 and 3. -/
theorem C8_default_reference_block_size_witness :
    numRefs
      { sources := none, hypotheses := ["a", "b", "c", "d"],
        references := some ["r0", "r1", "r2", "r3"], num_candidates := 2,
        num_references := none, nbest := 1, metric := "bleu",
        batch_size := 64, fp16 := false, refless := false } = 2 ∧
    ∃ src,
      (mainRun (fun _ _ _ => []) (fun _ _ _ _ => [])
        { sources := none, hypotheses := ["a", "b", "c", "d"],
          references := some ["r0", "r1", "r2", "r3"], num_candidates := 2,
          num_references := none, nbest := 1, metric := "bleu",
          batch_size := 64, fp16 := false, refless := false }).calls[1]? =
        some (CallRecord.rb (stripBlock ["a", "b", "c", "d"] 1 2)
          (stripBlock ["r0", "r1", "r2", "r3"] 1 2) src 1
          ((fun _ _ _ _ => ([] : List String))
            (stripBlock ["a", "b", "c", "d"] 1 2)
            (stripBlock ["r0", "r1", "r2", "r3"] 1 2) src 1)) :=
  C8_default_reference_block_size (fun _ _ _ => []) (fun _ _ _ _ => [])
    { sources := none, hypotheses := ["a", "b", "c", "d"],
      references := some ["r0", "r1", "r2", "r3"], num_candidates := 2,
      num_references := none, nbest := 1, metric := "bleu",
      batch_size := 64, fp16 := false, refless := false }
    ["r0", "r1", "r2", "r3"] (by decide) (by decide) (by decide)
    (by decide) (by decide) (Or.inl (by decide)) 1 (by decide)

/-- C6: On a well-formed run (divisible line count, `1 ≤ nbest ≤
num_candidates`), with both decoders modelled from the spec, every
sentence contributes exactly `nbest` printed lines — the
`output.sentence` list of its decode call, printed line by line at
decode.py lines 90-91 (reference-free) and 99-100 (reference-based) —
each line the text of one of that sentence's (stripped) candidate
hypotheses, the list being the ranked selection of the spec decoder.
The two conjuncts cover the two decoder modes. -/
theorem C6_nbest_lines_per_sentence
    (mRL mRB : String → String → Float) (args : Args)
    (hnc : args.num_candidates ≠ 0)
    (hdvd : args.num_candidates ∣ args.hypotheses.length)
    (hok : args.sources = none ∧ args.refless = false ∨
      ∃ ss, args.sources = some ss ∧
        args.hypotheses.length / args.num_candidates ≤ ss.length)
    (_hn1 : 1 ≤ args.nbest) (hnH : args.nbest ≤ args.num_candidates)
    (i : Nat) (hi : i < args.hypotheses.length / args.num_candidates) :
    (args.refless = false →
      ∃ src,
        (mainRun (specDecodeRL mRL) (specDecodeRB mRB) args).calls[i]? =
          some (CallRecord.rb
            (stripBlock args.hypotheses i args.num_candidates)
            (stripBlock (args.references.getD args.hypotheses) i
              (numRefs args)) src args.nbest
            (specDecodeRB mRB
              (stripBlock args.hypotheses i args.num_candidates)
              (stripBlock (args.references.getD args.hypotheses) i
                (numRefs args)) src args.nbest)) ∧
        (specDecodeRB mRB
          (stripBlock args.hypotheses i args.num_candidates)
          (stripBlock (args.references.getD args.hypotheses) i
            (numRefs args)) src args.nbest).length = args.nbest ∧
        ∀ line ∈ specDecodeRB mRB
            (stripBlock args.hypotheses i args.num_candidates)
            (stripBlock (args.references.getD args.hypotheses) i
              (numRefs args)) src args.nbest,
          line ∈ stripBlock args.hypotheses i args.num_candidates) ∧
    (args.refless = true →
      ∃ src,
        (mainRun (specDecodeRL mRL) (specDecodeRB mRB) args).calls[i]? =
          some (CallRecord.rl
            (stripBlock args.hypotheses i args.num_candidates) src
            args.nbest
            (specDecodeRL mRL
              (stripBlock args.hypotheses i args.num_candidates) src
              args.nbest)) ∧
        (specDecodeRL mRL
          (stripBlock args.hypotheses i args.num_candidates) src
          args.nbest).length = args.nbest ∧
        ∀ line ∈ specDecodeRL mRL
            (stripBlock args.hypotheses i args.num_candidates) src
            args.nbest,
          line ∈ stripBlock args.hypotheses i args.num_candidates) := by
  have hlen : (i + 1) * args.num_candidates ≤ args.hypotheses.length := by
    calc (i + 1) * args.num_candidates
        ≤ args.hypotheses.length / args.num_candidates *
            args.num_candidates :=
          Nat.mul_le_mul_right args.num_candidates (by omega)
      _ = args.hypotheses.length := Nat.div_mul_cancel hdvd
  have hbH : (stripBlock args.hypotheses i args.num_candidates).length =
      args.num_candidates :=
    stripBlock_length args.hypotheses i args.num_candidates hlen
  constructor
  · intro hm
    rw [mainRun_eq_refBased (specDecodeRL mRL) (specDecodeRB mRB) args
      hnc hdvd hm]
    have hok2 : args.sources = none ∨ ∃ ss, args.sources = some ss ∧
        0 + args.hypotheses.length / args.num_candidates ≤ ss.length := by
      rcases hok with ⟨h1, _⟩ | ⟨ss, hss, hlen2⟩
      · exact Or.inl h1
      · exact Or.inr ⟨ss, hss, by omega⟩
    obtain ⟨src, hsrc⟩ := refBasedLoop_calls_get (specDecodeRB mRB)
      args.sources (args.references.getD args.hypotheses) args.hypotheses
      args.num_candidates (numRefs args) args.nbest
      (args.hypotheses.length / args.num_candidates) 0 i hi hok2
    rw [Nat.zero_add] at hsrc
    refine ⟨src, hsrc, ?_, specDecodeRB_mem mRB _ _ _ _⟩
    rw [specDecodeRB_length, hbH]
    exact Nat.min_eq_left hnH
  · intro hm
    rcases hok with ⟨_, habs⟩ | ⟨ss, hss, hlen2⟩
    · rw [hm] at habs; cases habs
    · rw [mainRun_eq_refless (specDecodeRL mRL) (specDecodeRB mRB) args
        hnc hdvd hm, hss]
      obtain ⟨src, hsrc⟩ := reflessLoop_calls_get (specDecodeRL mRL) ss
        args.hypotheses args.num_candidates args.nbest
        (args.hypotheses.length / args.num_candidates) 0 i hi (by omega)
      rw [Nat.zero_add] at hsrc
      refine ⟨src, hsrc, ?_, specDecodeRL_mem mRL _ _ _⟩
      rw [specDecodeRL_length, hbH]
      exact Nat.min_eq_left hnH

/-- C6 witness: a reference-free run — two sentences of three candidates
with a two-line source file, `nbest` 2; sentence 0 prints exactly two
lines, each one of its own candidates. -/
theorem C6_nbest_lines_per_sentence_witness :
    (({ sources := some ["s0", "s1"],
        hypotheses := ["a", "b", "c", "d", "e", "f"],
        references := none, num_candidates := 3, num_references := none,
        nbest := 2, metric := "comet_qe", batch_size := 64,
        fp16 := false, refless := true } : Args).refless = false →
      ∃ src,
        (mainRun (specDecodeRL (fun _ _ => 0))
          (specDecodeRB (fun _ _ => 0))
          { sources := some ["s0", "s1"],
            hypotheses := ["a", "b", "c", "d", "e", "f"],
            references := none, num_candidates := 3,
            num_references := none, nbest := 2, metric := "comet_qe",
            batch_size := 64, fp16 := false,
            refless := true }).calls[0]? =
          some (CallRecord.rb
            (stripBlock ["a", "b", "c", "d", "e", "f"] 0 3)
            (stripBlock ["a", "b", "c", "d", "e", "f"] 0 3) src 2
            (specDecodeRB (fun _ _ => 0)
              (stripBlock ["a", "b", "c", "d", "e", "f"] 0 3)
              (stripBlock ["a", "b", "c", "d", "e", "f"] 0 3) src 2)) ∧
        (specDecodeRB (fun _ _ => 0)
          (stripBlock ["a", "b", "c", "d", "e", "f"] 0 3)
          (stripBlock ["a", "b", "c", "d", "e", "f"] 0 3) src 2).length =
          2 ∧
        ∀ line ∈ specDecodeRB (fun _ _ => 0)
            (stripBlock ["a", "b", "c", "d", "e", "f"] 0 3)
            (stripBlock ["a", "b", "c", "d", "e", "f"] 0 3) src 2,
          line ∈ stripBlock ["a", "b", "c", "d", "e", "f"] 0 3) ∧
    (({ sources := some ["s0", "s1"],
        hypotheses := ["a", "b", "c", "d", "e", "f"],
        references := none, num_candidates := 3, num_references := none,
        nbest := 2, metric := "comet_qe", batch_size := 64,
        fp16 := false, refless := true } : Args).refless = true →
      ∃ src,
        (mainRun (specDecodeRL (fun _ _ => 0))
          (specDecodeRB (fun _ _ => 0))
          { sources := some ["s0", "s1"],
            hypotheses := ["a", "b", "c", "d", "e", "f"],
            references := none, num_candidates := 3,
            num_references := none, nbest := 2, metric := "comet_qe",
            batch_size := 64, fp16 := false,
            refless := true }).calls[0]? =
          some (CallRecord.rl
            (stripBlock ["a", "b", "c", "d", "e", "f"] 0 3) src 2
            (specDecodeRL (fun _ _ => 0)
              (stripBlock ["a", "b", "c", "d", "e", "f"] 0 3) src 2)) ∧
        (specDecodeRL (fun _ _ => 0)
          (stripBlock ["a", "b", "c", "d", "e", "f"] 0 3) src 2).length =
          2 ∧
        ∀ line ∈ specDecodeRL (fun _ _ => 0)
            (stripBlock ["a", "b", "c", "d", "e", "f"] 0 3) src 2,
          line ∈ stripBlock ["a", "b", "c", "d", "e", "f"] 0 3) :=
  C6_nbest_lines_per_sentence (fun _ _ => 0) (fun _ _ => 0)
    { sources := some ["s0", "s1"],
      hypotheses := ["a", "b", "c", "d", "e", "f"],
      references := none, num_candidates := 3, num_references := none,
      nbest := 2, metric := "comet_qe", batch_size := 64, fp16 := false,
      refless := true } (by decide) (by decide)
    (Or.inr ⟨["s0", "s1"], rfl, by decide⟩) (by decide) (by decide) 0
    (by decide)

/-- C10 counterexample: no references file, `num_candidates` 2,
`--num-references` 1, hypotheses `["a", "b", "c", "d"]`.  Sentence 0
receives reference list `["a"]`, the stripped line at file index 0, and
that index lies inside sentence 0's own candidate block (file lines 0 and
1): with `num_references` different from `num_candidates` the references
of this sentence are NOT drawn from other sentences' candidate pools,
refuting the final clause of the claim. -/
theorem C10_counterexample :
    (mainRun (fun _ _ _ => []) (fun _ _ _ _ => [])
      { sources := none, hypotheses := ["a", "b", "c", "d"],
        references := none, num_candidates := 2, num_references := some 1,
        nbest := 1, metric := "bleu", batch_size := 64, fp16 := false,
        refless := false }).calls[0]? =
      some (CallRecord.rb ["a", "b"] ["a"] none 1 []) ∧
    (1 : Nat) ≠ 2 ∧
    ∀ idx ∈ clampedBlockIndices 0 1 4, idx ∈ clampedBlockIndices 0 2 4 := by
  refine ⟨by decide, by decide, by decide⟩

/-- C10 (amended): When no references file is supplied and
`--num-references` is set to a value `k` different from `num_candidates`,
the reference list for sentence `i` consists of the hypotheses-file lines
with indices `i * nr` through `(i + 1) * nr - 1` clamped to the file
length, stripped, where `nr` is `k` when `k` is nonzero and
`num_candidates` when `k = 0` (the Python `or` fall-through at line 80).
Contrary to the final clause of the claim, these lines are not in general
drawn from other sentences' candidate pools: for sentence 0 with
`0 < k < num_candidates` every reference line index lies inside sentence
0's own candidate block; they do reach other pools for every sentence
`i ≥ 1` when `0 < k < num_candidates` (line `i * k` lies below, in an
earlier sentence's block), and, when `k > num_candidates`, whenever the
reference slice is nonempty (`i * k <` file length) and sentence `i` is
not the last one (`(i + 1) * num_candidates <` file length). -/
theorem C10_reference_blocks_amended
    (dRL : List String → String → Nat → List String)
    (dRB : List String → List String → Option String → Nat → List String)
    (args : Args) (k : Nat)
    (href : args.references = none) (hnr : args.num_references = some k)
    (hmode : args.refless = false) (hnc : args.num_candidates ≠ 0)
    (hdvd : args.num_candidates ∣ args.hypotheses.length)
    (hok : args.sources = none ∨ ∃ ss, args.sources = some ss ∧
      args.hypotheses.length / args.num_candidates ≤ ss.length)
    (i : Nat) (hi : i < args.hypotheses.length / args.num_candidates) :
    (∃ src,
      (mainRun dRL dRB args).calls[i]? =
        some (CallRecord.rb
          (stripBlock args.hypotheses i args.num_candidates)
          (stripBlock args.hypotheses i (numRefs args)) src args.nbest
          (dRB (stripBlock args.hypotheses i args.num_candidates)
            (stripBlock args.hypotheses i (numRefs args)) src
            args.nbest))) ∧
    (stripBlock args.hypotheses i (numRefs args) =
      (clampedBlockIndices i (numRefs args) args.hypotheses.length).map
        (fun idx => pyStrip (args.hypotheses.getD idx ""))) ∧
    (k ≠ 0 → numRefs args = k) ∧
    (k = 0 → numRefs args = args.num_candidates) ∧
    (i = 0 → 0 < k → k < args.num_candidates →
      ∀ idx ∈ clampedBlockIndices i k args.hypotheses.length,
        idx ∈ clampedBlockIndices i args.num_candidates
          args.hypotheses.length) ∧
    (1 ≤ i → 0 < k → k < args.num_candidates →
      i * k ∈ clampedBlockIndices i k args.hypotheses.length ∧
      i * k ∉ clampedBlockIndices i args.num_candidates
        args.hypotheses.length ∧
      i * k < i * args.num_candidates) ∧
    (args.num_candidates < k → i * k < args.hypotheses.length →
      (i + 1) * args.num_candidates < args.hypotheses.length →
      ∃ idx ∈ clampedBlockIndices i k args.hypotheses.length,
        idx ∉ clampedBlockIndices i args.num_candidates
          args.hypotheses.length) := by
  have hL : (i + 1) * args.num_candidates ≤ args.hypotheses.length := by
    calc (i + 1) * args.num_candidates
        ≤ args.hypotheses.length / args.num_candidates *
            args.num_candidates :=
          Nat.mul_le_mul_right args.num_candidates (by omega)
      _ = args.hypotheses.length := Nat.div_mul_cancel hdvd
  have hsmc : (i + 1) * args.num_candidates =
      i * args.num_candidates + args.num_candidates :=
    Nat.succ_mul i args.num_candidates
  have hsmk : (i + 1) * k = i * k + k := Nat.succ_mul i k
  refine ⟨?_, stripBlock_eq_map_indices args.hypotheses i (numRefs args),
    ?_, ?_, ?_, ?_, ?_⟩
  · rw [mainRun_eq_refBased dRL dRB args hnc hdvd hmode]
    have hrefs : args.references.getD args.hypotheses =
        args.hypotheses := by
      rw [href]; rfl
    rw [hrefs]
    have hok2 : args.sources = none ∨ ∃ ss, args.sources = some ss ∧
        0 + args.hypotheses.length / args.num_candidates ≤ ss.length := by
      simpa using hok
    have h := refBasedLoop_calls_get dRB args.sources args.hypotheses
      args.hypotheses args.num_candidates (numRefs args) args.nbest
      (args.hypotheses.length / args.num_candidates) 0 i hi hok2
    simpa using h
  · intro hk0
    simp [numRefs, hnr, hk0]
  · intro hk0
    simp [numRefs, hnr, hk0]
  · rintro rfl hk0 hklt idx hidx
    rw [mem_clampedBlockIndices] at hidx ⊢
    have e1 : 0 * k = 0 := Nat.zero_mul k
    have e2 : (0 + 1) * k = k := by rw [Nat.zero_add, Nat.one_mul]
    have e3 : 0 * args.num_candidates = 0 := Nat.zero_mul _
    have e4 : (0 + 1) * args.num_candidates = args.num_candidates := by
      rw [Nat.zero_add, Nat.one_mul]
    rw [e1, e2] at hidx
    rw [e3, e4]
    omega
  · intro hi1 hk0 hklt
    have hmul : i * (k + 1) ≤ i * args.num_candidates :=
      Nat.mul_le_mul_left i (by omega)
    have hmul2 : i * (k + 1) = i * k + i := Nat.mul_succ i k
    have hlt : i * k < i * args.num_candidates := by omega
    refine ⟨?_, ?_, hlt⟩
    · rw [mem_clampedBlockIndices]
      exact ⟨Nat.le_refl _, by omega⟩
    · rw [mem_clampedBlockIndices]
      rintro ⟨hA, _⟩
      omega
  · intro hck hiL hncL
    have hmul3 : (i + 1) * (args.num_candidates + 1) ≤ (i + 1) * k :=
      Nat.mul_le_mul_left (i + 1) (by omega)
    have hmul4 : (i + 1) * (args.num_candidates + 1) =
        (i + 1) * args.num_candidates + (i + 1) :=
      Nat.mul_succ (i + 1) args.num_candidates
    by_cases hcase : i * k < (i + 1) * args.num_candidates
    · refine ⟨(i + 1) * args.num_candidates, ?_, ?_⟩
      · rw [mem_clampedBlockIndices]
        exact ⟨by omega, by omega⟩
      · rw [mem_clampedBlockIndices]
        rintro ⟨_, hB⟩
        omega
    · refine ⟨i * k, ?_, ?_⟩
      · rw [mem_clampedBlockIndices]
        exact ⟨Nat.le_refl _, by omega⟩
      · rw [mem_clampedBlockIndices]
        rintro ⟨hA, hB⟩
        omega

/-- C10 (amended) witness: `num_candidates` 2, `--num-references` 1, no
references file, sentence index 1 of a four-line hypotheses file: the
reference list is the stripped line at file index 1, which belongs to
sentence 0's candidate block. -/
theorem C10_reference_blocks_amended_witness :
    (∃ src,
      (mainRun (fun _ _ _ => []) (fun _ _ _ _ => [])
        { sources := none, hypotheses := ["a", "b", "c", "d"],
          references := none, num_candidates := 2,
          num_references := some 1, nbest := 1, metric := "bleu",
          batch_size := 64, fp16 := false, refless := false }).calls[1]? =
        some (CallRecord.rb (stripBlock ["a", "b", "c", "d"] 1 2)
          (stripBlock ["a", "b", "c", "d"] 1 1) src 1
          ((fun _ _ _ _ => ([] : List String))
            (stripBlock ["a", "b", "c", "d"] 1 2)
            (stripBlock ["a", "b", "c", "d"] 1 1) src 1))) ∧
    (stripBlock ["a", "b", "c", "d"] 1 1 =
      (clampedBlockIndices 1 1 4).map
        (fun idx =>
          pyStrip ((["a", "b", "c", "d"] : List String).getD idx ""))) ∧
    ((1 : Nat) ≠ 0 → (1 : Nat) = 1) ∧
    ((1 : Nat) = 0 → (1 : Nat) = 2) ∧
    ((1 : Nat) = 0 → 0 < 1 → (1 : Nat) < 2 →
      ∀ idx ∈ clampedBlockIndices 1 1 4,
        idx ∈ clampedBlockIndices 1 2 4) ∧
    (1 ≤ 1 → 0 < 1 → (1 : Nat) < 2 →
      (1 : Nat) * 1 ∈ clampedBlockIndices 1 1 4 ∧
      (1 : Nat) * 1 ∉ clampedBlockIndices 1 2 4 ∧
      (1 : Nat) * 1 < 1 * 2) ∧
    ((2 : Nat) < 1 → (1 : Nat) * 1 < 4 → (1 + 1) * 2 < 4 →
      ∃ idx ∈ clampedBlockIndices 1 1 4,
        idx ∉ clampedBlockIndices 1 2 4) :=
  C10_reference_blocks_amended (fun _ _ _ => []) (fun _ _ _ _ => [])
    { sources := none, hypotheses := ["a", "b", "c", "d"],
      references := none, num_candidates := 2, num_references := some 1,
      nbest := 1, metric := "bleu", batch_size := 64, fp16 := false,
      refless := false } 1 (by decide) (by decide) (by decide) (by decide)
    (by decide) (Or.inl (by decide)) 1 (by decide)

